import Mathlib

/-!
Incident monitoring platform — verification of the Go API core.

A shallow embedding of the Go incident ingestion-and-summary service
(`cmd/server/http_handler.go`, `cmd/server/main.go`, `internal/store/store.go`)
together with proofs and refutations of the specified properties.

Modelling conventions:
* `time.Time` values are abstract integers (only equality and ordering matter
  to the embedded code);
* the PostgreSQL store is a pure value (`DB`): the `incidents` table and the
  `logs` table as lists in insertion order, plus the `SERIAL` counters;
* fallible external interactions (the database connection, the ML collaborator
  HTTP call) are oracles passed as explicit arguments, one per interaction the
  Go code performs;
* JSON documents for the opaque `metadata` field are kept in their serialized
  string form, exactly as `store.LogEntry.Metadata` does in Go.
-/

namespace IncidentPlatform

/-- Go `store.Incident`: one row of the `incidents` table.  Optional columns are
`Option`; timestamps are abstract integers. -/
structure Incident where
  id : Int
  createdAt : Int
  status : String
  severity : String
  description : String
  summary : Option String
  rootCause : Option String
  resolvedAt : Option Int
deriving Repr, DecidableEq

/-- Go `store.LogEntry`: one row of the `logs` table.  `metadata` is the serialized
JSON document, as in the Go struct (a `string` field). -/
structure LogEntry where
  id : Int
  timestamp : Int
  service : String
  level : String
  message : String
  metadata : String
deriving Repr, DecidableEq

/-- The persistent store: both tables plus the `SERIAL` id counters
(`id SERIAL PRIMARY KEY` starts at 1 and assigns increasing ids). -/
structure DB where
  incidents : List Incident
  nextIncidentId : Int
  logs : List LogEntry
  nextLogId : Int
deriving Repr, DecidableEq

/-- One element of `IngestLogRequest.Logs` after JSON binding.  An absent
`timestamp` is a nil pointer (`none`); an absent `metadata` object is a nil
`map[string]any` (`none`); a present metadata object is an association list of
keys to already-rendered JSON value fragments (the document is opaque to this
core). -/
structure ReqLog where
  timestamp : Option Int
  service : String
  level : String
  message : String
  metadata : Option (List (String × String))
deriving Repr, DecidableEq

/-- Go `json.Marshal` applied to the `map[string]any` metadata field:
a nil map marshals to the four bytes `null`; a non-nil map marshals to a JSON
object (rendered here with `\x7b`/`\x7d` braces and the opaque value
fragments). -/
def marshalMetadata : Option (List (String × String)) → String
  | none => "null"
  | some fields =>
      "\x7b" ++ String.intercalate ","
        (fields.map (fun kv => "\"" ++ kv.1 ++ "\":" ++ kv.2)) ++ "\x7d"

/-- The serialized empty JSON document. -/
def emptyDoc : String := "\x7b\x7d"

/-- The normalization loop body of `IngestLogs`: fill a missing timestamp with
ingestion-time now, marshal the metadata, leave `ID` at its zero value (the
database assigns it). -/
def toLogEntry (now : Int) (r : ReqLog) : LogEntry :=
  { id := 0
    timestamp := r.timestamp.getD now
    service := r.service
    level := r.level
    message := r.message
    metadata := marshalMetadata r.metadata }

/-- Sequential `SERIAL` id assignment for a batch of inserted rows. -/
def assignIds (nid : Int) : List LogEntry → List LogEntry
  | [] => []
  | e :: es => { e with id := nid } :: assignIds (nid + 1) es

/-- Go `repository.InsertLogs`: all entries are queued into one `pgx.Batch` and
sent by a single `SendBatch`, which pipelines every statement followed by one
protocol `Sync`; PostgreSQL therefore executes them in one implicit
transaction.  `failAt` is the index of the first failing statement, if any; a
failure aborts the implicit transaction, so the working state built by the
already-executed statements is discarded and nothing from the batch commits.
The returned flag is the error as the caller sees it: `InsertLogs` calls
`br.Exec()` exactly once, which reads only the FIRST queued statement's
result, and the deferred `br.Close()` error is discarded — so only a failure
of statement 0 is reported; a failure at any later index returns a nil error
even though the aborted transaction persisted nothing.
The SQL `COALESCE($5::jsonb, empty-doc)` cannot change the metadata value: the
bound parameter is a Go `string`, never SQL NULL, so the coalesce always keeps
the cast value (note a `jsonb` JSON null is not SQL NULL). -/
def insertLogsStore (db : DB) (entries : List LogEntry) (failAt : Option Nat) :
    Bool × DB :=
  let working : DB :=
    { db with
      logs := db.logs ++ assignIds db.nextLogId entries
      nextLogId := db.nextLogId + entries.length }
  match failAt with
  | some i =>
      if i < entries.length then
        if i = 0 then (false, db) else (true, db)
      else (true, working)
  | none => (true, working)

/-- Transport-level outcome of `POST /api/logs`. -/
inductive IngestResp where
  /-- HTTP 400, body `error: no logs provided`. -/
  | noLogs
  /-- HTTP 500, body `error: failed to store logs`. -/
  | storeFailed
  /-- HTTP 202, body `status: accepted, count: n`. -/
  | accepted (count : Nat)
deriving Repr, DecidableEq

/-- HTTP status code of an ingestion response. -/
def IngestResp.code : IngestResp → Nat
  | .noLogs => 400
  | .storeFailed => 500
  | .accepted _ => 202

/-- Go `Handler.IngestLogs`: reject an empty batch with 400, otherwise normalize
every entry and insert the whole batch through the store; report 500 if the
store errored, else 202 with the accepted count.  (A body that fails JSON
binding is also a 400 at the transport layer and never reaches this logic.) -/
def ingestLogs (now : Int) (req : List ReqLog) (failAt : Option Nat) (db : DB) :
    IngestResp × DB :=
  if req.length = 0 then (.noLogs, db)
  else
    let entries := req.map (toLogEntry now)
    match insertLogsStore db entries failAt with
    | (false, db') => (.storeFailed, db')
    | (true, db') => (.accepted entries.length, db')

/-- Insert an entry into a timestamp-descending list, keeping it sorted. -/
def insertDesc (e : LogEntry) : List LogEntry → List LogEntry
  | [] => [e]
  | x :: xs => if x.timestamp ≤ e.timestamp then e :: x :: xs else x :: insertDesc e xs

/-- Sort log entries most-recent-first (`ORDER BY timestamp DESC`). -/
def sortDesc : List LogEntry → List LogEntry
  | [] => []
  | x :: xs => insertDesc x (sortDesc xs)

/-- Go `repository.ListRecentLogs`: most recent first, `LIMIT` rows.  On an empty
table the query simply returns zero rows — it is not an error. -/
def listRecentLogs (db : DB) (limit : Nat) : List LogEntry :=
  (sortDesc db.logs).take limit

/-- Response of `GET /api/health`. -/
structure HealthResp where
  code : Nat
  status : String
  dbOk : Bool
deriving Repr, DecidableEq

/-- Go `Handler.Health`: probe the store with `ListRecentLogs(ctx, 1)` under a
3-second context deadline.  `probeFail` is true when the query returned an
error, including a deadline (timeout) error.  The handler always answers 200
with the probe outcome as the `db` flag. -/
def health (db : DB) (probeFail : Bool) : HealthResp :=
  let probe : Option (List LogEntry) :=
    if probeFail then none else some (listRecentLogs db 1)
  { code := 200, status := "ok", dbOk := probe.isSome }

/-- Go `strconv.ParseInt(s, 10, 64)`: an optional single sign, then at least
one decimal digit and nothing else, and the value must fit in a signed 64-bit
integer (out of range is an error). -/
def parseInt64 (s : String) : Option Int :=
  let signDigits : Int × List Char :=
    match s.data with
    | [] => (1, [])
    | c :: rest =>
        if c = '+' then (1, rest)
        else if c = '-' then (-1, rest)
        else (1, c :: rest)
  let sign := signDigits.1
  let digits := signDigits.2
  if digits = [] then none
  else if digits.all (fun c => c.isDigit) then
    let n : Nat := digits.foldl (fun acc c => acc * 10 + (c.toNat - 48)) 0
    let v : Int := sign * (n : Int)
    if v < -(2 ^ 63) ∨ (2 ^ 63 - 1) < v then none else some v
  else none

/-- Outcome of the outbound `POST {ml}/analyze_incident` call as the handler
observes it. -/
inductive MLResult where
  /-- Go `httpClient.Do` returned an error (unreachable, timeout) or the response
  status was >= 300. -/
  | unreachable
  /-- the response body failed to decode as `(summary, root_cause)` JSON. -/
  | badPayload
  /-- a 2xx response that decoded; missing fields decode to empty strings. -/
  | ok (summary rootCause : String)
deriving Repr, DecidableEq

/-- Transport-level outcome of `GET /api/summary/:incident_id`. -/
inductive SummaryResp where
  /-- HTTP 200, the incident serialized as JSON. -/
  | ok (inc : Incident)
  /-- HTTP 400, body `error: invalid incident id`. -/
  | badRequest
  /-- HTTP 404, body `error: incident not found`. -/
  | notFound
  /-- HTTP 502, body `error: ML service unavailable`. -/
  | mlUnavailable
  /-- HTTP 502, body `error: invalid ML response`. -/
  | mlInvalid
  /-- HTTP 500, body `error: failed to save summary`. -/
  | saveFailed
deriving Repr, DecidableEq

/-- HTTP status code of a summary response. -/
def SummaryResp.code : SummaryResp → Nat
  | .ok _ => 200
  | .badRequest => 400
  | .notFound => 404
  | .mlUnavailable => 502
  | .mlInvalid => 502
  | .saveFailed => 500

/-- Go `repository.GetIncident`: `SELECT ... WHERE id = $1` returning the single
matching row.  `readFail` models a connection or query error; with no error,
no matching row is `pgx.ErrNoRows`.  The Go handler checks only `err != nil`,
so both failure modes reach it identically. -/
def getIncident (db : DB) (readFail : Bool) (id : Int) : Option Incident :=
  if readFail then none else db.incidents.find? (fun i => i.id = id)

/-- Go `repository.UpdateIncidentSummary`: `UPDATE incidents SET summary = $2,
root_cause = $3 WHERE id = $1`.  Both columns are written by the one statement;
rows with a different id are untouched; a missing id is not an error (`Exec`
does not inspect the affected-row count). -/
def updateIncidentSummary (db : DB) (id : Int) (s r : String) : DB :=
  { db with
    incidents := db.incidents.map (fun i =>
      if i.id = id then { i with summary := some s, rootCause := some r } else i) }

/-- Go `Handler.GetIncidentSummary`, one sequential request.  Arguments mirror the
handler's interactions in order: `readFail` for the `GetIncident` query, `ml`
for the collaborator call, `updateFail` for the `UpdateIncidentSummary` write.
Returns the response, the store afterwards, and how many collaborator calls
were made (0 or 1).  (`http.NewRequestWithContext` can only fail on an
unparsable configured base URL, a deployment constant, so it is not an oracle
here.) -/
def getIncidentSummary (idStr : String) (readFail : Bool) (ml : MLResult)
    (updateFail : Bool) (db : DB) : SummaryResp × DB × Nat :=
  match parseInt64 idStr with
  | none => (.badRequest, db, 0)
  | some id =>
    match getIncident db readFail id with
    | none => (.notFound, db, 0)
    | some inc =>
      if inc.summary.isSome && inc.rootCause.isSome then
        (.ok inc, db, 0)
      else
        match ml with
        | .unreachable => (.mlUnavailable, db, 1)
        | .badPayload => (.mlInvalid, db, 1)
        | .ok s r =>
            if updateFail then (.saveFailed, db, 1)
            else
              (.ok { inc with summary := some s, rootCause := some r },
               updateIncidentSummary db id s r, 1)

/-- Go `repository.CreateIncident`: the creation contract used by the external
anomaly-detection collaborator.  Inserts `(status, severity, description)`;
`summary`, `root_cause` and `resolved_at` take their column defaults (absent);
the database assigns id and creation time. -/
def createIncident (now : Int) (status severity description : String) (db : DB) :
    Incident × DB :=
  let inc : Incident :=
    { id := db.nextIncidentId, createdAt := now, status := status
      severity := severity, description := description
      summary := none, rootCause := none, resolvedAt := none }
  (inc, { db with incidents := db.incidents ++ [inc],
                  nextIncidentId := db.nextIncidentId + 1 })

/-- The empty database after migrations (`SERIAL` counters at 1). -/
def emptyDB : DB := { incidents := [], nextIncidentId := 1, logs := [], nextLogId := 1 }

/-! Interleaved execution of concurrent summary requests.

`GetIncidentSummary` touches shared state at three points: the `GetIncident`
read, the collaborator HTTP call, and the `UpdateIncidentSummary` write;
everything between them acts on request-local values (the fetched `incident`
struct, the decoded response).  A concurrent execution of several requests for
the same id is an interleaving of these atomic interactions.  There is no lock
of any kind in the handler, so every interleaving is possible. -/

/-- Program counter of one in-flight `GetIncidentSummary` request (id already
parsed, no read failure or write failure modelled: the happy path that the
request-storm scenario is about). -/
inductive TaskPC where
  /-- before the `GetIncident` read. -/
  | start
  /-- holding the fetched row (or not-found). -/
  | readDone (found : Option Incident)
  /-- holding the fetched row and the decoded collaborator response. -/
  | mlDone (inc : Incident) (res : MLResult)
  /-- responded. -/
  | finished (resp : SummaryResp)
deriving Repr, DecidableEq

/-- Global state of the interleaved system: the store, every request's program
counter, and how many collaborator calls have been issued so far. -/
structure ConcState where
  db : DB
  tasks : List TaskPC
  mlCalls : Nat
deriving Repr, DecidableEq

/-- Advance request `t` by one atomic interaction.  The collaborator is an
oracle indexed by the call number, so distinct calls may return distinct
(summary, root cause) texts — nothing in the system forces the external model
to answer twice identically. -/
def stepTask (id : Int) (oracle : Nat → MLResult) (st : ConcState) (t : Nat) :
    ConcState :=
  match st.tasks.get? t with
  | none => st
  | some pc =>
    match pc with
    | .start =>
        { st with tasks := st.tasks.set t (.readDone (st.db.incidents.find? (fun i => i.id = id))) }
    | .readDone none =>
        { st with tasks := st.tasks.set t (.finished .notFound) }
    | .readDone (some inc) =>
        if inc.summary.isSome && inc.rootCause.isSome then
          { st with tasks := st.tasks.set t (.finished (.ok inc)) }
        else
          { st with tasks := st.tasks.set t (.mlDone inc (oracle st.mlCalls)),
                    mlCalls := st.mlCalls + 1 }
    | .mlDone _ .unreachable =>
        { st with tasks := st.tasks.set t (.finished .mlUnavailable) }
    | .mlDone _ .badPayload =>
        { st with tasks := st.tasks.set t (.finished .mlInvalid) }
    | .mlDone inc (.ok s r) =>
        { st with
          db := updateIncidentSummary st.db id s r,
          tasks := st.tasks.set t
            (.finished (.ok { inc with summary := some s, rootCause := some r })) }
    | .finished _ => st

/-- Run a schedule: at each step the named request performs its next atomic
interaction. -/
def runSchedule (id : Int) (oracle : Nat → MLResult) :
    List Nat → ConcState → ConcState
  | [], st => st
  | t :: rest, st => runSchedule id oracle rest (stepTask id oracle st t)

/-! The core's operations and reachable stores. -/

/-- One complete operation of the core against the store, with its oracles.
`health` and `listIncidents` are reads and never modify the store; `create` is
the external anomaly-detection collaborator acting through the store's
creation contract. -/
inductive Op where
  | ingest (now : Int) (req : List ReqLog) (failAt : Option Nat)
  | health (probeFail : Bool)
  | listIncidents
  | create (now : Int) (status severity description : String)
  | summary (idStr : String) (readFail : Bool) (ml : MLResult) (updateFail : Bool)

/-- The store after one operation runs to completion. -/
def applyOp (op : Op) (db : DB) : DB :=
  match op with
  | .ingest now req failAt => (ingestLogs now req failAt db).2
  | .health _ => db
  | .listIncidents => db
  | .create now st sev d => (createIncident now st sev d db).2
  | .summary idStr rf ml uf => (getIncidentSummary idStr rf ml uf db).2.1

/-- Stores reachable from the migrated empty database by sequences of complete
operations. -/
inductive Reachable : DB → Prop
  | init : Reachable emptyDB
  | step (op : Op) (db : DB) : Reachable db → Reachable (applyOp op db)

/-! Concrete fixtures. -/

/-- A freshly created incident: no summary, no root cause. -/
def freshInc : Incident :=
  { id := 1, createdAt := 0, status := "open", severity := "high",
    description := "Error rate spike", summary := none, rootCause := none,
    resolvedAt := none }

/-- A store holding exactly the fresh incident. -/
def db1 : DB :=
  { incidents := [freshInc], nextIncidentId := 2, logs := [], nextLogId := 1 }

/-- A collaborator that answers differently on its first and second call —
nothing forces the external model to repeat itself. -/
def stormOracle : Nat → MLResult := fun n =>
  if n = 0 then .ok "S0" "R0" else .ok "S1" "R1"

/-- Two summary requests for incident 1, both about to start, against `db1`. -/
def concInit : ConcState :=
  { db := db1, tasks := [.start, .start], mlCalls := 0 }

/-- A log-batch entry whose `service` is the empty string. -/
def blankServiceReq : ReqLog :=
  { timestamp := none, service := "", level := "info", message := "boom",
    metadata := some [] }

/-- A log-batch entry with no metadata field (nil map after binding). -/
def noMetaReq : ReqLog :=
  { timestamp := none, service := "api", level := "info", message := "m",
    metadata := none }

/-- The fresh incident after its pair has been cached. -/
def summarizedInc : Incident :=
  { freshInc with summary := some "S", rootCause := some "R" }

/-- A store whose incident 1 is already summarized. -/
def dbSummarized : DB :=
  { db1 with incidents := [summarizedInc] }

/-! Store invariants. -/

/-- Two members of a list with pairwise-distinct ids and the same id are the
same element. -/
theorem eq_of_mem_unique_ids {l : List Incident}
    (hu : l.Pairwise (fun a b => a.id ≠ b.id)) {a b : Incident}
    (ha : a ∈ l) (hb : b ∈ l) (hid : a.id = b.id) : a = b := by
  induction l with
  | nil => cases ha
  | cons x xs ih =>
      rcases List.pairwise_cons.mp hu with ⟨hx, hxs⟩
      rcases List.mem_cons.mp ha with ha' | ha'
      · rcases List.mem_cons.mp hb with hb' | hb'
        · rw [ha', hb']
        · exact absurd hid (ha' ▸ hx b hb')
      · rcases List.mem_cons.mp hb with hb' | hb'
        · exact absurd hid.symm (hb' ▸ hx a ha')
        · exact ih hxs ha' hb'

/-- Log ingestion never touches the incidents table or its id counter. -/
theorem ingestLogs_keeps_incidents (now : Int) (req : List ReqLog)
    (failAt : Option Nat) (db : DB) :
    (ingestLogs now req failAt db).2.incidents = db.incidents ∧
    (ingestLogs now req failAt db).2.nextIncidentId = db.nextIncidentId := by
  unfold ingestLogs insertLogsStore
  by_cases h : req.length = 0
  · simp [h]
  · rw [if_neg h]
    cases failAt with
    | none => simp
    | some i =>
        by_cases hi : i < req.length
        · by_cases hz : i = 0
          · subst hz; simp [List.length_map, hi]
          · simp [List.length_map, hi, hz]
        · simp [List.length_map, hi]

/-- The summary-fill row update preserves every row's id. -/
theorem updateFn_id (id : Int) (s r : String) (j : Incident) :
    (if j.id = id then { j with summary := some s, rootCause := some r } else j).id
      = j.id := by
  by_cases h : j.id = id <;> simp [h]

/-- A summary request leaves the store unchanged unless it reached the
successful cache-fill write, in which case the store is the one-row pair
update for the id it parsed, found uncached, and successfully computed. -/
theorem summary_db_shape (idStr : String) (rf : Bool) (ml : MLResult)
    (uf : Bool) (db : DB) :
    (getIncidentSummary idStr rf ml uf db).2.1 = db ∨
    ∃ id inc s r, parseInt64 idStr = some id ∧
      getIncident db rf id = some inc ∧
      (inc.summary.isSome && inc.rootCause.isSome) = false ∧
      ml = .ok s r ∧ uf = false ∧
      (getIncidentSummary idStr rf ml uf db).2.1 = updateIncidentSummary db id s r := by
  cases hp : parseInt64 idStr with
  | none => left; simp [getIncidentSummary, hp]
  | some id =>
      cases hg : getIncident db rf id with
      | none => left; simp [getIncidentSummary, hp, hg]
      | some inc =>
          cases hhit : (inc.summary.isSome && inc.rootCause.isSome) with
          | true => left; simp [getIncidentSummary, hp, hg, hhit]
          | false =>
              cases ml with
              | unreachable => left; simp [getIncidentSummary, hp, hg, hhit]
              | badPayload => left; simp [getIncidentSummary, hp, hg, hhit]
              | ok s r =>
                  cases uf with
                  | true => left; simp [getIncidentSummary, hp, hg, hhit]
                  | false =>
                      right
                      exact ⟨id, inc, s, r, rfl, hg, hhit, rfl, rfl,
                        by simp only [getIncidentSummary, hp, hg, hhit,
                          Bool.false_eq_true, if_false]⟩

/-- The invariant every operation maintains on the store: the summary pair of
every incident is both-or-neither, ids stay below the `SERIAL` counter, and
ids are pairwise distinct. -/
structure DBInv (db : DB) : Prop where
  pairs : ∀ inc ∈ db.incidents, inc.summary.isSome = inc.rootCause.isSome
  bound : ∀ inc ∈ db.incidents, inc.id < db.nextIncidentId
  uniq : db.incidents.Pairwise (fun a b => a.id ≠ b.id)

/-- The invariant only looks at the incidents table and its counter. -/
theorem DBInv.of_eq {db db' : DB} (h : DBInv db)
    (h1 : db'.incidents = db.incidents)
    (h2 : db'.nextIncidentId = db.nextIncidentId) : DBInv db' := by
  refine ⟨?_, ?_, ?_⟩
  · rw [h1]; exact h.pairs
  · rw [h1, h2]; exact h.bound
  · rw [h1]; exact h.uniq

/-- Every reachable store satisfies the invariant. -/
theorem reachable_inv (db : DB) (h : Reachable db) : DBInv db := by
  induction h with
  | init => exact ⟨by simp [emptyDB], by simp [emptyDB], by simp [emptyDB]⟩
  | step op db hdb ih =>
      cases op with
      | ingest now req failAt =>
          exact ih.of_eq (ingestLogs_keeps_incidents now req failAt db).1
            (ingestLogs_keeps_incidents now req failAt db).2
      | health p => exact ih
      | listIncidents => exact ih
      | create now st sev d =>
          refine ⟨?_, ?_, ?_⟩
          · intro inc hinc
            simp only [applyOp, createIncident] at hinc
            rcases List.mem_append.mp hinc with h' | h'
            · exact ih.pairs inc h'
            · rw [List.mem_singleton.mp h']
          · intro inc hinc
            simp only [applyOp, createIncident] at hinc ⊢
            rcases List.mem_append.mp hinc with h' | h'
            · exact (ih.bound inc h').trans (lt_add_one _)
            · rw [List.mem_singleton.mp h']; exact lt_add_one _
          · simp only [applyOp, createIncident]
            refine List.pairwise_append.mpr ⟨ih.uniq, List.pairwise_singleton _ _, ?_⟩
            intro a ha b hb
            rw [List.mem_singleton.mp hb]
            exact ne_of_lt (ih.bound a ha)
      | summary idStr rf ml uf =>
          rcases summary_db_shape idStr rf ml uf db with
            heq | ⟨id, tinc, s, r, _, _, _, _, _, heq⟩
          · exact ih.of_eq (by simp only [applyOp]; rw [heq])
              (by simp only [applyOp]; rw [heq])
          · have hres : (applyOp (.summary idStr rf ml uf) db).incidents =
                db.incidents.map (fun j =>
                  if j.id = id then { j with summary := some s, rootCause := some r }
                  else j) := by
              simp only [applyOp]; rw [heq]; rfl
            refine ⟨?_, ?_, ?_⟩
            · intro inc hinc
              rw [hres] at hinc
              rcases List.mem_map.mp hinc with ⟨j, _, hj⟩
              by_cases hid : j.id = id
              · rw [← hj]; simp [hid]
              · rw [← hj]; simp only [if_neg hid]
                exact ih.pairs j (by assumption)
            · intro inc hinc
              have hnext : (applyOp (.summary idStr rf ml uf) db).nextIncidentId =
                  db.nextIncidentId := by
                simp only [applyOp]; rw [heq]; rfl
              rw [hres] at hinc
              rw [hnext]
              rcases List.mem_map.mp hinc with ⟨j, hjmem, hj⟩
              have : inc.id = j.id := by rw [← hj]; exact updateFn_id id s r j
              rw [this]
              exact ih.bound j hjmem
            · rw [hres]
              refine List.pairwise_map.mpr ?_
              refine ih.uniq.imp ?_
              intro a b hab
              rw [updateFn_id, updateFn_id]
              exact hab

/-! Theorems for the claims. -/

/-- C1: the claim says N concurrent GET /summary/:id requests for the same
fresh incident make exactly one Analysis Collaborator call, serialized by a
per-id critical section with a cache re-check.  The handler has no critical
section at all: under the interleaving read–read–call–call–write–write, two
concurrent requests for fresh incident 1 issue two collaborator calls and the
two callers receive different (summary, root cause) pairs. -/
theorem summary_request_storm_double_call :
    (runSchedule 1 stormOracle [0, 1, 0, 1, 0, 1] concInit).mlCalls = 2 ∧
    (runSchedule 1 stormOracle [0, 1, 0, 1, 0, 1] concInit).tasks =
      [.finished (.ok { freshInc with summary := some "S0", rootCause := some "R0" }),
       .finished (.ok { freshInc with summary := some "S1", rootCause := some "R1" })] ∧
    ({ freshInc with summary := some "S0", rootCause := some "R0" } : Incident) ≠
      { freshInc with summary := some "S1", rootCause := some "R1" } := by
  refine ⟨rfl, rfl, by decide⟩

/-- C2 counterexample: a batch containing an entry whose `service` is the
empty string is not rejected — the handler accepts it with 202 and persists
the entry.  Only batch emptiness is validated. -/
theorem ingest_blank_service_accepted :
    (ingestLogs 0 [blankServiceReq] none emptyDB).1 = .accepted 1 ∧
    (ingestLogs 0 [blankServiceReq] none emptyDB).2.logs.length = 1 ∧
    (IngestResp.accepted 1).code = 202 := by
  refine ⟨rfl, rfl, rfl⟩

/-- C3 counterexample: when the collaborator call succeeds but the
`UpdateIncidentSummary` write fails, the handler answers 500
(`failed to save summary`) and does not return the computed pair; the store
is unchanged. -/
theorem summary_write_fail_returns_500 :
    getIncidentSummary "1" false (.ok "S" "R") true db1 = (.saveFailed, db1, 1) ∧
    SummaryResp.code .saveFailed = 500 := by
  refine ⟨rfl, rfl⟩

/-- C4: a log entry ingested with no metadata field is persisted with
metadata `null` (Go `json.Marshal` of a nil map), which the SQL
`COALESCE($5::jsonb, ...)` does not replace because the bound string is never
SQL NULL — the persisted document is the JSON null, not the empty document
the schema's default and the coalesce clearly intend. -/
theorem absent_metadata_persists_null :
    (ingestLogs 0 [noMetaReq] none emptyDB).2.logs =
      [{ id := 1, timestamp := 0, service := "api", level := "info",
         message := "m", metadata := "null" }] ∧
    marshalMetadata none = "null" ∧ "null" ≠ emptyDoc := by
  refine ⟨rfl, rfl, by decide⟩

/-- C5 counterexample: a persistence failure while reading the incident
(`GetIncident` errors for reasons other than a missing row) is answered with
404, not the 500 the StoreError taxonomy prescribes — the handler cannot
distinguish a failed read from a missing row. -/
theorem summary_read_store_error_maps_404 :
    (getIncidentSummary "1" true (.ok "S" "R") false db1).1 = .notFound ∧
    SummaryResp.code .notFound = 404 := by
  refine ⟨rfl, rfl⟩

/-- C8: the batched insert never persists a partial batch — whatever the
statement failure index, the store after `InsertLogs` is either extended by
exactly the whole batch, appended in order with freshly assigned ids, or
exactly unchanged.  Atomicity comes from the single implicit transaction;
the error as reported to the caller is a separate matter (a failure after the
first statement is swallowed by the single `br.Exec()` and the discarded
`br.Close()` error), but persistence is all-or-none regardless. -/
theorem insert_logs_atomic (db : DB) (entries : List LogEntry) (failAt : Option Nat) :
    (insertLogsStore db entries failAt).2 =
      { db with logs := db.logs ++ assignIds db.nextLogId entries,
                nextLogId := db.nextLogId + entries.length } ∨
    (insertLogsStore db entries failAt).2 = db := by
  unfold insertLogsStore
  cases failAt with
  | none => left; rfl
  | some i =>
      by_cases hi : i < entries.length
      · right
        by_cases hz : i = 0
        · subst hz; simp [hi]
        · simp [hi, hz]
      · left; simp [hi]

/-- C9: the health endpoint always answers 200 with status `ok`; the `db`
flag is false exactly when the bounded store probe errored or timed out; and
the probe makes no assumption that any logs exist — on an empty log table it
succeeds with zero rows. -/
theorem health_always_ok (db : DB) (probeFail : Bool) :
    (health db probeFail).code = 200 ∧
    (health db probeFail).status = "ok" ∧
    (health db probeFail).dbOk = !probeFail ∧
    (health { db with logs := [] } false).dbOk = true ∧
    listRecentLogs { db with logs := [] } 1 = [] := by
  cases probeFail <;>
    simp [health, listRecentLogs, sortDesc]

/-- C2 (amended): the ingestion endpoint validates only batch emptiness — an
empty batch is rejected with 400 and the store is untouched; entries with
empty field strings are not rejected.  A non-empty batch is persisted as one
unit — all entries or none — but the response does not reliably report the
outcome: a failure of the first batch statement yields 500 with nothing
persisted, a failure of any later statement is swallowed (the single
`br.Exec()` reads only the first result and the deferred `br.Close()` error is
discarded) so the handler answers 202 with the full count while the aborted
transaction persisted nothing, and only with no statement failure does the 202
come with every normalized entry persisted. -/
theorem ingest_batch_validated_as_unit (now : Int) (req : List ReqLog)
    (failAt : Option Nat) (db : DB) :
    (req = [] → ingestLogs now req failAt db = (.noLogs, db)) ∧
    (req ≠ [] → failAt = some 0 →
      ingestLogs now req failAt db = (.storeFailed, db)) ∧
    (req ≠ [] → ∀ i, failAt = some i → 0 < i → i < req.length →
      ingestLogs now req failAt db = (.accepted req.length, db)) ∧
    (req ≠ [] → (∀ i, failAt = some i → req.length ≤ i) →
      ingestLogs now req failAt db =
        (.accepted req.length,
         { db with logs := db.logs ++ assignIds db.nextLogId (req.map (toLogEntry now)),
                   nextLogId := db.nextLogId + req.length })) := by
  have hlen0 : req ≠ [] → ¬ req.length = 0 := fun h => by
    simpa [List.length_eq_zero] using h
  refine ⟨?_, ?_, ?_, ?_⟩
  · intro h; subst h; rfl
  · intro h hfa; subst hfa
    have hpos : 0 < req.length := Nat.pos_of_ne_zero (hlen0 h)
    unfold ingestLogs insertLogsStore
    rw [if_neg (hlen0 h)]
    simp [List.length_map, hpos]
  · intro h i hfa hpos hi; subst hfa
    unfold ingestLogs insertLogsStore
    rw [if_neg (hlen0 h)]
    simp [List.length_map, hi, Nat.pos_iff_ne_zero.mp hpos]
  · intro h hout
    unfold ingestLogs insertLogsStore
    rw [if_neg (hlen0 h)]
    cases failAt with
    | none => simp [List.length_map]
    | some i =>
        have hni : ¬ i < req.length := Nat.not_lt.mpr (hout i rfl)
        simp [List.length_map, hni]

/-- C2 witness: the empty batch is refused with nothing stored, and a
two-entry batch whose second insert statement fails is answered 202
`count: 2` while the store is left untouched. -/
theorem ingest_batch_validated_as_unit_witness :
    ingestLogs 0 [] none emptyDB = (.noLogs, emptyDB) ∧
    ingestLogs 0 [noMetaReq, blankServiceReq] (some 1) emptyDB =
      (.accepted 2, emptyDB) :=
  ⟨(ingest_batch_validated_as_unit 0 [] none emptyDB).1 rfl,
   (ingest_batch_validated_as_unit 0 [noMetaReq, blankServiceReq] (some 1)
      emptyDB).2.2.1 (by decide) 1 rfl (by decide) (by decide)⟩

/-- C3 (amended): when the incident exists, its pair is not yet cached, and
the collaborator call succeeds but the `setSummary` write fails, the handler
answers 500 (StoreError) with the store unchanged — the computed pair is not
returned to the caller; only one collaborator call was made. -/
theorem summary_write_fail_behavior (idStr : String) (id : Int) (db : DB)
    (inc : Incident) (s r : String)
    (hp : parseInt64 idStr = some id)
    (hf : db.incidents.find? (fun i => i.id = id) = some inc)
    (hmiss : (inc.summary.isSome && inc.rootCause.isSome) = false) :
    getIncidentSummary idStr false (.ok s r) true db = (.saveFailed, db, 1) ∧
    SummaryResp.code .saveFailed = 500 := by
  refine ⟨?_, rfl⟩
  simp [getIncidentSummary, getIncident, hp, hf, hmiss]

/-- C3 witness: instantiation at the fresh incident store. -/
theorem summary_write_fail_behavior_witness :
    getIncidentSummary "1" false (.ok "S" "R") true db1 = (.saveFailed, db1, 1) ∧
    SummaryResp.code .saveFailed = 500 :=
  summary_write_fail_behavior "1" 1 db1 freshInc "S" "R" rfl rfl rfl

/-- C5 (amended): the status mapping of GET /summary/:id — a non-integer id
gives 400; a failed or empty incident read gives 404 (a read-side persistence
failure is indistinguishable from a missing row and also maps to 404, not
500); on a cache miss an unreachable or non-2xx collaborator and a malformed
collaborator payload give 502; a failed summary write gives 500; the cache-hit
and successful-fill paths give 200. -/
theorem summary_status_mapping (idStr : String) (readFail : Bool)
    (ml : MLResult) (updateFail : Bool) (db : DB) :
    (parseInt64 idStr = none →
      (getIncidentSummary idStr readFail ml updateFail db).1.code = 400) ∧
    (∀ id, parseInt64 idStr = some id → getIncident db readFail id = none →
      (getIncidentSummary idStr readFail ml updateFail db).1.code = 404) ∧
    (∀ id inc, parseInt64 idStr = some id →
      getIncident db readFail id = some inc →
      (inc.summary.isSome && inc.rootCause.isSome) = true →
      (getIncidentSummary idStr readFail ml updateFail db).1.code = 200) ∧
    (∀ id inc, parseInt64 idStr = some id →
      getIncident db readFail id = some inc →
      (inc.summary.isSome && inc.rootCause.isSome) = false →
      ((ml = .unreachable →
          (getIncidentSummary idStr readFail ml updateFail db).1.code = 502) ∧
       (ml = .badPayload →
          (getIncidentSummary idStr readFail ml updateFail db).1.code = 502) ∧
       (∀ s r, ml = .ok s r → updateFail = true →
          (getIncidentSummary idStr readFail ml updateFail db).1.code = 500) ∧
       (∀ s r, ml = .ok s r → updateFail = false →
          (getIncidentSummary idStr readFail ml updateFail db).1.code = 200))) := by
  refine ⟨?_, ?_, ?_, ?_⟩
  · intro hp; simp [getIncidentSummary, hp, SummaryResp.code]
  · intro id hp hg; simp [getIncidentSummary, hp, hg, SummaryResp.code]
  · intro id inc hp hg hhit
    simp [getIncidentSummary, hp, hg, hhit, SummaryResp.code]
  · intro id inc hp hg hmiss
    refine ⟨?_, ?_, ?_, ?_⟩
    · intro hml
      simp [getIncidentSummary, hp, hg, hmiss, hml, SummaryResp.code]
    · intro hml
      simp [getIncidentSummary, hp, hg, hmiss, hml, SummaryResp.code]
    · intro s r hml huf
      simp [getIncidentSummary, hp, hg, hmiss, hml, huf, SummaryResp.code]
    · intro s r hml huf
      simp [getIncidentSummary, hp, hg, hmiss, hml, huf, SummaryResp.code]

/-- C5 witness: a non-integer id maps to 400. -/
theorem summary_status_mapping_witness :
    (getIncidentSummary "abc" false .unreachable false emptyDB).1.code = 400 :=
  (summary_status_mapping "abc" false .unreachable false emptyDB).1 rfl

/-- C6: on an incident whose summary and root cause are both already present,
a summary request returns the stored incident unchanged with zero collaborator
calls, and a second request right after returns the identical result, again
with zero calls — so two sequential requests make at most one call in total
and agree on the pair. -/
theorem summary_cache_hit_idempotent (idStr : String) (id : Int) (db : DB)
    (inc : Incident) (s r : String)
    (hp : parseInt64 idStr = some id)
    (hf : db.incidents.find? (fun i => i.id = id) = some inc)
    (hs : inc.summary = some s) (hr : inc.rootCause = some r) :
    ∀ ml₁ : MLResult, ∀ uf₁ : Bool, ∀ ml₂ : MLResult, ∀ uf₂ : Bool,
      getIncidentSummary idStr false ml₁ uf₁ db = (.ok inc, db, 0) ∧
      getIncidentSummary idStr false ml₂ uf₂
          (getIncidentSummary idStr false ml₁ uf₁ db).2.1 = (.ok inc, db, 0) := by
  intro ml₁ uf₁ ml₂ uf₂
  have h1 : getIncidentSummary idStr false ml₁ uf₁ db = (.ok inc, db, 0) := by
    simp [getIncidentSummary, getIncident, hp, hf, hs, hr]
  have h2 : getIncidentSummary idStr false ml₂ uf₂ db = (.ok inc, db, 0) := by
    simp [getIncidentSummary, getIncident, hp, hf, hs, hr]
  rw [h1]
  exact ⟨rfl, h2⟩

/-- C6 witness: instantiation at a store whose incident 1 is already
summarized. -/
theorem summary_cache_hit_idempotent_witness :
    getIncidentSummary "1" false .unreachable false dbSummarized =
      (.ok summarizedInc, dbSummarized, 0) ∧
    getIncidentSummary "1" false .badPayload true
        (getIncidentSummary "1" false .unreachable false dbSummarized).2.1 =
      (.ok summarizedInc, dbSummarized, 0) :=
  summary_cache_hit_idempotent "1" 1 dbSummarized summarizedInc "S" "R"
    rfl rfl rfl rfl .unreachable false .badPayload true

/-- C10: a successful cache-miss summary request changes only the summary and
root-cause fields of rows with the requested id: the log table and both id
counters are untouched, the incident list is the original list with exactly
the requested row's pair filled (record update preserving id, created_at,
status, severity, description, resolved_at), every other incident is still
present unchanged, and the response carries the fetched incident with only
its pair filled. -/
theorem summary_cache_miss_frame (idStr : String) (id : Int) (db : DB)
    (inc : Incident) (s r : String)
    (hp : parseInt64 idStr = some id)
    (hf : db.incidents.find? (fun i => i.id = id) = some inc)
    (hmiss : (inc.summary.isSome && inc.rootCause.isSome) = false) :
    (getIncidentSummary idStr false (.ok s r) false db).1 =
      .ok { inc with summary := some s, rootCause := some r } ∧
    (getIncidentSummary idStr false (.ok s r) false db).2.2 = 1 ∧
    (getIncidentSummary idStr false (.ok s r) false db).2.1.logs = db.logs ∧
    (getIncidentSummary idStr false (.ok s r) false db).2.1.nextLogId = db.nextLogId ∧
    (getIncidentSummary idStr false (.ok s r) false db).2.1.nextIncidentId =
      db.nextIncidentId ∧
    (getIncidentSummary idStr false (.ok s r) false db).2.1.incidents =
      db.incidents.map (fun j =>
        if j.id = id then { j with summary := some s, rootCause := some r } else j) ∧
    (∀ j ∈ db.incidents, ¬ j.id = id →
      j ∈ (getIncidentSummary idStr false (.ok s r) false db).2.1.incidents) ∧
    (∀ j ∈ db.incidents, j.id = id →
      ({ j with summary := some s, rootCause := some r } : Incident) ∈
        (getIncidentSummary idStr false (.ok s r) false db).2.1.incidents) := by
  have hrun : getIncidentSummary idStr false (.ok s r) false db =
      (.ok { inc with summary := some s, rootCause := some r },
       updateIncidentSummary db id s r, 1) := by
    simp [getIncidentSummary, getIncident, hp, hf, hmiss]
  rw [hrun]
  refine ⟨rfl, rfl, rfl, rfl, rfl, rfl, ?_, ?_⟩
  · intro j hj hne
    refine List.mem_map.mpr ⟨j, hj, ?_⟩
    simp [hne]
  · intro j hj heq
    refine List.mem_map.mpr ⟨j, hj, ?_⟩
    simp [heq]

/-- C10 witness: instantiation at the fresh incident store. -/
theorem summary_cache_miss_frame_witness :
    (getIncidentSummary "1" false (.ok "S" "R") false db1).1 =
      .ok { freshInc with summary := some "S", rootCause := some "R" } ∧
    (getIncidentSummary "1" false (.ok "S" "R") false db1).2.1.logs = db1.logs ∧
    (getIncidentSummary "1" false (.ok "S" "R") false db1).2.1.nextIncidentId =
      db1.nextIncidentId :=
  have h := summary_cache_miss_frame "1" 1 db1 freshInc "S" "R" rfl rfl rfl
  ⟨h.1, h.2.2.1, h.2.2.2.2.1⟩

/-- C7: in every reachable store, every incident's (summary, root_cause) pair
is both absent or both present — the one mutation path writes both columns in
one statement — and an incident whose pair is set keeps exactly that pair
across any further complete operation of the core (the handler's cache check
short-circuits before the write, and ids are unique, so no later operation
overwrites a filled pair). -/
theorem incident_pair_atomic (db : DB) (h : Reachable db) :
    (∀ inc ∈ db.incidents, inc.summary.isSome = inc.rootCause.isSome) ∧
    (∀ op : Op, ∀ inc ∈ db.incidents,
      inc.summary.isSome = true → inc.rootCause.isSome = true →
      ∃ inc' ∈ (applyOp op db).incidents,
        inc'.id = inc.id ∧ inc'.summary = inc.summary ∧
        inc'.rootCause = inc.rootCause) := by
  obtain ⟨hpairs, hbound, huniq⟩ := reachable_inv db h
  refine ⟨hpairs, ?_⟩
  intro op inc hmem hs hr
  cases op with
  | ingest now req failAt =>
      refine ⟨inc, ?_, rfl, rfl, rfl⟩
      have := (ingestLogs_keeps_incidents now req failAt db).1
      simp only [applyOp]
      rw [this]
      exact hmem
  | health p => exact ⟨inc, hmem, rfl, rfl, rfl⟩
  | listIncidents => exact ⟨inc, hmem, rfl, rfl, rfl⟩
  | create now st sev d =>
      refine ⟨inc, ?_, rfl, rfl, rfl⟩
      simp only [applyOp, createIncident]
      exact List.mem_append.mpr (Or.inl hmem)
  | summary idStr rf ml uf =>
      rcases summary_db_shape idStr rf ml uf db with
        heq | ⟨id, tinc, s, r, _, hg, hmiss, _, _, heq⟩
      · refine ⟨inc, ?_, rfl, rfl, rfl⟩
        simp only [applyOp]
        rw [heq]
        exact hmem
      · by_cases hid : inc.id = id
        · exfalso
          have hfind : db.incidents.find? (fun i => i.id = id) = some tinc := by
            cases rf with
            | true => simp [getIncident] at hg
            | false => simpa [getIncident] using hg
          have htmem := List.mem_of_find?_eq_some hfind
          have htid : tinc.id = id := by
            simpa using List.find?_some hfind
          have hteq : tinc = inc :=
            eq_of_mem_unique_ids huniq htmem hmem (by rw [htid, hid])
          rw [hteq, hs, hr] at hmiss
          simp at hmiss
        · refine ⟨inc, ?_, rfl, rfl, rfl⟩
          have hres : (applyOp (.summary idStr rf ml uf) db).incidents =
              db.incidents.map (fun j =>
                if j.id = id then { j with summary := some s, rootCause := some r }
                else j) := by
            simp only [applyOp]; rw [heq]; rfl
          rw [hres]
          exact List.mem_map.mpr ⟨inc, hmem, by simp [hid]⟩

/-- C7 witness store: create an incident, then fill its summary. -/
def dbWitness : DB :=
  applyOp (.summary "1" false (.ok "S" "R") false)
    (applyOp (.create 0 "open" "high" "Error rate spike") emptyDB)

/-- C7 witness: the invariant and no-overwrite conclusion at a concrete
reachable store holding one summarized incident. -/
theorem incident_pair_atomic_witness :
    (∀ inc ∈ dbWitness.incidents, inc.summary.isSome = inc.rootCause.isSome) ∧
    (∀ op : Op, ∀ inc ∈ dbWitness.incidents,
      inc.summary.isSome = true → inc.rootCause.isSome = true →
      ∃ inc' ∈ (applyOp op dbWitness).incidents,
        inc'.id = inc.id ∧ inc'.summary = inc.summary ∧
        inc'.rootCause = inc.rootCause) :=
  incident_pair_atomic dbWitness
    (Reachable.step (.summary "1" false (.ok "S" "R") false)
      (applyOp (.create 0 "open" "high" "Error rate spike") emptyDB)
      (Reachable.step (.create 0 "open" "high" "Error rate spike")
        emptyDB Reachable.init))

end IncidentPlatform
